import Mathlib

/-!
Verification development for the xcho browser extension's per-tweet result
caching and state-synchronization core.

The TypeScript source is shallowly embedded:

* JavaScript plain objects used as string-keyed records
  (`Record<string, TweetResults>`, `Record<string, TweetData>`) are modelled
  as association lists in insertion order, matching `Object.keys` enumeration
  order for non-integer string keys; `delete obj[k]` removes the entry,
  `obj[k] = v` updates in place when present and appends when absent.
* `chrome.storage.session` state visible to the claims is collected in a
  `SessionStore` record; React component state is a `PanelState` record.
* Timestamps (`Date.now()`) are passed explicitly as `Nat` parameters.
* Monetary cost figures are opaque data here (modelled as `Int`): no claim
  performs arithmetic on them, they are only stored, cleared and compared.
* `async` handlers are embedded as pure state transformers; where a claim is
  about an interleaving (an in-flight generation completing after a post
  switch), the handler is split into its begin/complete phases exactly as the
  `await` boundaries split it in the source.
-/

namespace Xcho

/-- `TweetData` from src/types/index.ts: text plus optional author and url. -/
structure TweetData where
  text : String
  author : Option String
  url : Option String
deriving DecidableEq

/-- `TokenUsage` from src/types/index.ts. -/
structure TokenUsage where
  promptTokens : Nat
  completionTokens : Nat
  totalTokens : Nat
deriving DecidableEq

/-- `TokenCost` from src/types/index.ts; dollar figures are opaque data for
the cache logic, so they are represented by `Int`. -/
structure TokenCost where
  inputCost : Int
  outputCost : Int
  totalCost : Int
deriving DecidableEq

/-- `CommentExplanation`: the Korean translation and relevance text attached
to a generated comment. -/
structure CommentExplanation where
  koreanTranslation : String
  relevanceReason : String
deriving DecidableEq

/-- `TweetResults`: one entry of the per-tweet results cache
(`tweetResultsCache` in session storage). -/
structure TweetResults where
  generatedComment : String
  tokenUsage : Option TokenUsage
  tokenCost : Option TokenCost
  currentModel : String
  commentExplanation : Option CommentExplanation
  lastUpdated : Nat
deriving DecidableEq

/-- `SidePanelState`: the session-storage snapshot of the panel
(`sidePanelState` key). -/
structure SidePanelState where
  tweetData : Option TweetData
  generatedComment : String
  tokenUsage : Option TokenUsage
  tokenCost : Option TokenCost
  currentModel : String
  commentExplanation : Option CommentExplanation
  lastUpdated : Nat
deriving DecidableEq

/-- `GenerationResult` from src/types/index.ts: what `generateCommentStream`
resolves with. -/
structure GenerationResult where
  comment : String
  usage : TokenUsage
  cost : TokenCost
  model : String
deriving DecidableEq

/-- Result of `generateCommentExplanation`. -/
structure ExplanationResult where
  explanation : CommentExplanation
  usage : TokenUsage
  cost : TokenCost
deriving DecidableEq

end Xcho

namespace JsRecord

variable {κ : Type} {α : Type} [DecidableEq κ]

/-- `obj[k]` on a JS record: first entry with the key, if any. -/
def lookup (l : List (κ × α)) (k : κ) : Option α :=
  match l with
  | [] => none
  | (k', v) :: rest => if k' = k then some v else lookup rest k

/-- `obj[k] = v` on a JS record: update in place when the key is present,
append when absent (insertion-order enumeration). -/
def set (l : List (κ × α)) (k : κ) (v : α) : List (κ × α) :=
  match l with
  | [] => [(k, v)]
  | (k', v') :: rest => if k' = k then (k', v) :: rest else (k', v') :: set rest k v

/-- `delete obj[k]` on a JS record: remove the entry with the key. -/
def erase (l : List (κ × α)) (k : κ) : List (κ × α) :=
  match l with
  | [] => []
  | (k', v') :: rest => if k' = k then rest else (k', v') :: erase rest k

/-- Keys of the record, in enumeration order. -/
def keys (l : List (κ × α)) : List κ := l.map Prod.fst

theorem lookup_set_self (l : List (κ × α)) (k : κ) (v : α) :
    lookup (set l k v) k = some v := by
  induction l with
  | nil => simp [set, lookup]
  | cons p rest ih =>
    obtain ⟨k', v'⟩ := p
    by_cases h : k' = k
    · simp [set, lookup, h]
    · simp [set, lookup, h, ih]

theorem lookup_set_ne (l : List (κ × α)) (k k' : κ) (v : α) (h : k ≠ k') :
    lookup (set l k v) k' = lookup l k' := by
  induction l with
  | nil => simp [set, lookup, h]
  | cons p rest ih =>
    obtain ⟨k0, v0⟩ := p
    by_cases hk : k0 = k
    · subst hk
      simp [set, lookup, h, ih]
    · by_cases hk' : k0 = k'
      · simp [set, lookup, hk, hk', Ne.symm h]
      · simp [set, lookup, hk, hk', ih]

theorem lookup_erase_ne (l : List (κ × α)) (k k' : κ) (h : k ≠ k') :
    lookup (erase l k) k' = lookup l k' := by
  induction l with
  | nil => simp [erase]
  | cons p rest ih =>
    obtain ⟨k0, v0⟩ := p
    by_cases hk : k0 = k
    · subst hk
      simp [erase, lookup, h]
    · by_cases hk' : k0 = k'
      · simp [erase, lookup, hk, hk', Ne.symm h]
      · simp [erase, lookup, hk, hk', ih]

theorem length_set_absent (l : List (κ × α)) (k : κ) (v : α)
    (h : lookup l k = none) : (set l k v).length = l.length + 1 := by
  induction l with
  | nil => simp [set]
  | cons p rest ih =>
    obtain ⟨k0, v0⟩ := p
    by_cases hk : k0 = k
    · simp [lookup, hk] at h
    · simp only [lookup, if_neg hk] at h
      simp [set, hk, ih h]

theorem length_set_present (l : List (κ × α)) (k : κ) (v v' : α)
    (h : lookup l k = some v') : (set l k v).length = l.length := by
  induction l with
  | nil => simp [lookup] at h
  | cons p rest ih =>
    obtain ⟨k0, v0⟩ := p
    by_cases hk : k0 = k
    · simp [set, hk]
    · simp only [lookup, if_neg hk] at h
      simp [set, hk, ih h]

theorem length_erase_of_mem (l : List (κ × α)) (k : κ) (h : k ∈ keys l) :
    (erase l k).length + 1 = l.length := by
  induction l with
  | nil => simp [keys] at h
  | cons p rest ih =>
    obtain ⟨k0, v0⟩ := p
    by_cases hk : k0 = k
    · simp [erase, hk]
    · have hmem : k ∈ keys rest := by
        simp [keys] at h
        rcases h with h | h
        · exact absurd h.symm hk
        · simpa [keys] using h
      simp [erase, hk, ih hmem]

theorem mem_of_mem_erase (l : List (κ × α)) (k : κ) (p : κ × α)
    (h : p ∈ erase l k) : p ∈ l := by
  induction l with
  | nil => simp [erase] at h
  | cons q rest ih =>
    obtain ⟨k0, v0⟩ := q
    by_cases hk : k0 = k
    · simp only [erase, if_pos hk] at h
      exact List.mem_cons_of_mem _ h
    · simp only [erase, if_neg hk, List.mem_cons] at h
      rcases h with h | h
      · exact h ▸ List.mem_cons_self _ _
      · exact List.mem_cons_of_mem _ (ih h)

theorem mem_set (l : List (κ × α)) (k : κ) (v : α) (p : κ × α)
    (h : p ∈ set l k v) : p.2 = v ∨ p ∈ l := by
  induction l with
  | nil =>
    simp [set] at h
    exact Or.inl (by simp [h])
  | cons q rest ih =>
    obtain ⟨k0, v0⟩ := q
    by_cases hk : k0 = k
    · simp only [set, if_pos hk, List.mem_cons] at h
      rcases h with h | h
      · exact Or.inl (by simp [h])
      · exact Or.inr (List.mem_cons_of_mem _ h)
    · simp only [set, if_neg hk, List.mem_cons] at h
      rcases h with h | h
      · exact Or.inr (h ▸ List.mem_cons_self _ _)
      · rcases ih h with h' | h'
        · exact Or.inl h'
        · exact Or.inr (List.mem_cons_of_mem _ h')

theorem lookup_eq_some_of_mem (l : List (κ × α)) (k : κ) (v : α)
    (hnd : (keys l).Nodup) (h : (k, v) ∈ l) : lookup l k = some v := by
  induction l with
  | nil => simp at h
  | cons q rest ih =>
    obtain ⟨k0, v0⟩ := q
    simp only [keys, List.map_cons, List.nodup_cons] at hnd
    rcases List.mem_cons.mp h with h | h
    · simp only [Prod.mk.injEq] at h
      obtain ⟨hk, hv⟩ := h
      subst hk
      subst hv
      simp [lookup]
    · have hk0 : k0 ≠ k := by
        intro heq
        subst heq
        exact hnd.1 (List.mem_map.mpr ⟨(k0, v), h, rfl⟩)
      simp only [lookup, if_neg hk0]
      exact ih (by simpa [keys] using hnd.2) h

theorem mem_of_lookup_eq_some (l : List (κ × α)) (k : κ) (v : α)
    (h : lookup l k = some v) : (k, v) ∈ l := by
  induction l with
  | nil => simp [lookup] at h
  | cons q rest ih =>
    obtain ⟨k0, v0⟩ := q
    by_cases hk : k0 = k
    · simp only [lookup, if_pos hk] at h
      subst hk
      injection h with h'
      subst h'
      exact List.mem_cons_self _ _
    · simp only [lookup, if_neg hk] at h
      exact List.mem_cons_of_mem _ (ih h)

theorem lookup_eq_none_iff (l : List (κ × α)) (k : κ) :
    lookup l k = none ↔ k ∉ keys l := by
  induction l with
  | nil => simp [lookup, keys]
  | cons p rest ih =>
    obtain ⟨k0, v0⟩ := p
    by_cases hk : k0 = k
    · simp [lookup, keys, hk]
    · simp [lookup, keys, hk, ih, Ne.symm hk]

theorem keys_erase_sublist (l : List (κ × α)) (k : κ) :
    (keys (erase l k)).Sublist (keys l) := by
  induction l with
  | nil => simp [erase]
  | cons p rest ih =>
    obtain ⟨k0, v0⟩ := p
    by_cases hk : k0 = k
    · simp only [erase, if_pos hk, keys, List.map_cons]
      exact List.sublist_cons_self _ _
    · simp only [erase, if_neg hk, keys, List.map_cons]
      exact List.Sublist.cons₂ _ ih

theorem keys_set_present (l : List (κ × α)) (k : κ) (v v' : α)
    (h : lookup l k = some v') : keys (set l k v) = keys l := by
  induction l with
  | nil => simp [lookup] at h
  | cons p rest ih =>
    obtain ⟨k0, v0⟩ := p
    by_cases hk : k0 = k
    · simp [set, keys, hk]
    · simp only [lookup, if_neg hk] at h
      simp only [set, if_neg hk, keys, List.map_cons]
      have hrec := ih h
      simp only [keys] at hrec
      rw [hrec]

theorem keys_set_absent (l : List (κ × α)) (k : κ) (v : α)
    (h : lookup l k = none) : keys (set l k v) = keys l ++ [k] := by
  induction l with
  | nil => simp [set, keys]
  | cons p rest ih =>
    obtain ⟨k0, v0⟩ := p
    by_cases hk : k0 = k
    · simp [lookup, hk] at h
    · simp only [lookup, if_neg hk] at h
      simp only [set, if_neg hk, keys, List.map_cons]
      have hrec := ih h
      simp only [keys] at hrec
      rw [hrec]
      simp

end JsRecord

namespace Xcho

/-- The per-tweet results cache object (`tweetResultsCache` in session
storage, `Record<string, TweetResults>`). -/
abbrev TRCache : Type := List (String × TweetResults)

/-- `getTweetKey` from App.tsx: cache key is the first 200 characters of the
tweet text (`tweet.text.slice(0, 200)`). -/
def getTweetKey (tweet : TweetData) : String :=
  ⟨tweet.text.data.take 200⟩

/-- The oldest-entry scan inside `saveTweetResults`: starting from
`(keys[0], existing[keys[0]].lastUpdated)`, walk every entry and keep the
key with the strictly smaller `lastUpdated` (first-encountered minimum on
ties). -/
def oldestScan (acc : String × Nat) (l : TRCache) : String × Nat :=
  l.foldl
    (fun acc p => if p.2.lastUpdated < acc.2 then (p.1, p.2.lastUpdated) else acc)
    acc

/-- `saveTweetResults` from App.tsx (the cache mutation part): no-op when
`results.generatedComment` is empty; when at capacity (10 entries) and the
key is absent, delete the entry found by the oldest-entry scan, then store
`results` under `key`. -/
def saveTweetResults (cache : TRCache) (key : String) (results : TweetResults) :
    TRCache :=
  if results.generatedComment = "" then cache
  else
    let cache1 :=
      if 10 ≤ cache.length ∧ JsRecord.lookup cache key = none then
        match cache with
        | [] => cache
        | (k0, v0) :: _ =>
          JsRecord.erase cache (oldestScan (k0, v0.lastUpdated) cache).1
      else cache
    JsRecord.set cache1 key results

/-- Well-formedness of the cache object: keys are unique (true of every JS
object) and every entry carries a non-empty generated comment. -/
def cacheWF (cache : TRCache) : Prop :=
  (JsRecord.keys cache).Nodup ∧ ∀ p ∈ cache, p.2.generatedComment ≠ ""

instance : DecidablePred cacheWF := by
  unfold cacheWF
  infer_instance

theorem oldestScan_le (l : TRCache) (acc : String × Nat) :
    (oldestScan acc l).2 ≤ acc.2 ∧ ∀ p ∈ l, (oldestScan acc l).2 ≤ p.2.lastUpdated := by
  induction l generalizing acc with
  | nil => simp [oldestScan]
  | cons p rest ih =>
    have hstep : oldestScan acc (p :: rest)
        = oldestScan (if p.2.lastUpdated < acc.2 then (p.1, p.2.lastUpdated) else acc) rest := by
      simp [oldestScan, List.foldl_cons]
    constructor
    · rw [hstep]
      refine le_trans (ih _).1 ?_
      by_cases h : p.2.lastUpdated < acc.2
      · simp [h]
        exact le_of_lt h
      · simp [h]
    · intro q hq
      rcases List.mem_cons.mp hq with hq | hq
      · subst hq
        rw [hstep]
        refine le_trans (ih _).1 ?_
        by_cases h : q.2.lastUpdated < acc.2
        · simp [h]
        · simp [h]
          exact le_of_not_lt h
      · rw [hstep]
        exact (ih _).2 q hq

theorem oldestScan_mem (l : TRCache) (acc : String × Nat) :
    oldestScan acc l = acc ∨
      ∃ p ∈ l, oldestScan acc l = (p.1, p.2.lastUpdated) := by
  induction l generalizing acc with
  | nil => simp [oldestScan]
  | cons p rest ih =>
    have hstep : oldestScan acc (p :: rest)
        = oldestScan (if p.2.lastUpdated < acc.2 then (p.1, p.2.lastUpdated) else acc) rest := by
      simp [oldestScan, List.foldl_cons]
    by_cases h : p.2.lastUpdated < acc.2
    · rcases ih (if p.2.lastUpdated < acc.2 then (p.1, p.2.lastUpdated) else acc) with h' | h'
      · right
        exact ⟨p, List.mem_cons_self _ _, by rw [hstep, h', if_pos h]⟩
      · obtain ⟨q, hq, hq'⟩ := h'
        right
        exact ⟨q, List.mem_cons_of_mem _ hq, by rw [hstep, hq']⟩
    · rcases ih (if p.2.lastUpdated < acc.2 then (p.1, p.2.lastUpdated) else acc) with h' | h'
      · left
        rw [hstep, h', if_neg h]
      · obtain ⟨q, hq, hq'⟩ := h'
        right
        exact ⟨q, List.mem_cons_of_mem _ hq, by rw [hstep, hq']⟩

/-- The key selected by the oldest-entry scan names an entry of the cache
whose `lastUpdated` is minimal among all entries. -/
theorem oldestScan_spec (k0 : String) (v0 : TweetResults) (rest : TRCache) :
    ∃ p ∈ (k0, v0) :: rest,
      (oldestScan (k0, v0.lastUpdated) ((k0, v0) :: rest)).1 = p.1 ∧
      (oldestScan (k0, v0.lastUpdated) ((k0, v0) :: rest)).2 = p.2.lastUpdated ∧
      ∀ q ∈ (k0, v0) :: rest, p.2.lastUpdated ≤ q.2.lastUpdated := by
  set l : TRCache := (k0, v0) :: rest with hl
  have hmin := (oldestScan_le l (k0, v0.lastUpdated)).2
  rcases oldestScan_mem l (k0, v0.lastUpdated) with h | h
  · refine ⟨(k0, v0), by simp [hl], by simp [h], by simp [h], ?_⟩
    intro q hq
    have := hmin q hq
    rw [h] at this
    exact this
  · obtain ⟨p, hp, hp'⟩ := h
    refine ⟨p, hp, by simp [hp'], by simp [hp'], ?_⟩
    intro q hq
    have := hmin q hq
    rw [hp'] at this
    exact this

/-- Unfolding of `saveTweetResults` on the eviction branch. -/
theorem saveTweetResults_evict_eq (k0 : String) (v0 : TweetResults) (rest : TRCache)
    (key : String) (results : TweetResults)
    (hempty : results.generatedComment ≠ "")
    (hcap : 10 ≤ ((k0, v0) :: rest : TRCache).length)
    (habs : JsRecord.lookup ((k0, v0) :: rest) key = none) :
    saveTweetResults ((k0, v0) :: rest) key results
      = JsRecord.set
          (JsRecord.erase ((k0, v0) :: rest)
            (oldestScan (k0, v0.lastUpdated) ((k0, v0) :: rest)).1)
          key results := by
  unfold saveTweetResults
  rw [if_neg hempty, if_pos ⟨hcap, habs⟩]

/-- Unfolding of `saveTweetResults` when no eviction happens. -/
theorem saveTweetResults_noevict_eq (cache : TRCache) (key : String)
    (results : TweetResults)
    (hempty : results.generatedComment ≠ "")
    (hguard : ¬(10 ≤ cache.length ∧ JsRecord.lookup cache key = none)) :
    saveTweetResults cache key results = JsRecord.set cache key results := by
  unfold saveTweetResults
  rw [if_neg hempty, if_neg hguard]

/-- `saveTweetResults` preserves the cache invariant: unique keys, non-empty
comments, and at most 10 entries. -/
theorem saveTweetResults_preserves (cache : TRCache) (key : String)
    (results : TweetResults) (hwf : cacheWF cache) (hlen : cache.length ≤ 10) :
    cacheWF (saveTweetResults cache key results) ∧
      (saveTweetResults cache key results).length ≤ 10 := by
  by_cases hempty : results.generatedComment = ""
  · unfold saveTweetResults
    rw [if_pos hempty]
    exact ⟨hwf, hlen⟩
  by_cases hguard : 10 ≤ cache.length ∧ JsRecord.lookup cache key = none
  · obtain ⟨hcap, habs⟩ := hguard
    rcases cache with _ | ⟨⟨k0, v0⟩, rest⟩
    · simp at hcap
    · rw [saveTweetResults_evict_eq k0 v0 rest key results hempty hcap habs]
      obtain ⟨p, hp, hp1, hp2, hpmin⟩ := oldestScan_spec k0 v0 rest
      have hokmem :
          (oldestScan (k0, v0.lastUpdated) ((k0, v0) :: rest)).1
            ∈ JsRecord.keys ((k0, v0) :: rest) := by
        rw [hp1]
        exact List.mem_map.mpr ⟨p, hp, rfl⟩
      have herlen := JsRecord.length_erase_of_mem ((k0, v0) :: rest) _ hokmem
      have hnderase :
          (JsRecord.keys (JsRecord.erase ((k0, v0) :: rest)
            (oldestScan (k0, v0.lastUpdated) ((k0, v0) :: rest)).1)).Nodup :=
        hwf.1.sublist (JsRecord.keys_erase_sublist _ _)
      have habs2 : JsRecord.lookup
          (JsRecord.erase ((k0, v0) :: rest)
            (oldestScan (k0, v0.lastUpdated) ((k0, v0) :: rest)).1) key = none := by
        rw [JsRecord.lookup_eq_none_iff] at habs ⊢
        intro hmem
        exact habs ((JsRecord.keys_erase_sublist _ _).subset hmem)
      refine ⟨⟨?_, ?_⟩, ?_⟩
      · rw [JsRecord.keys_set_absent _ _ _ habs2]
        have hkeynotin := (JsRecord.lookup_eq_none_iff _ _).mp habs2
        simp [List.nodup_append, hnderase, hkeynotin]
      · intro q hq
        rcases JsRecord.mem_set _ _ _ _ hq with h | h
        · rw [h]
          exact hempty
        · exact hwf.2 q (JsRecord.mem_of_mem_erase _ _ _ h)
      · rw [JsRecord.length_set_absent _ _ _ habs2]
        omega
  · rw [saveTweetResults_noevict_eq cache key results hempty hguard]
    have hmem : ∀ q ∈ JsRecord.set cache key results,
        q.2.generatedComment ≠ "" := by
      intro q hq
      rcases JsRecord.mem_set _ _ _ _ hq with h | h
      · rw [h]
        exact hempty
      · exact hwf.2 q h
    rcases hlk : JsRecord.lookup cache key with _ | v'
    · have hsmall : cache.length < 10 := by
        by_contra hge
        exact hguard ⟨by omega, hlk⟩
      refine ⟨⟨?_, hmem⟩, ?_⟩
      · rw [JsRecord.keys_set_absent _ _ _ hlk]
        have hkeynotin := (JsRecord.lookup_eq_none_iff _ _).mp hlk
        simp [List.nodup_append, hwf.1, hkeynotin]
      · rw [JsRecord.length_set_absent _ _ _ hlk]
        omega
    · refine ⟨⟨?_, hmem⟩, ?_⟩
      · rw [JsRecord.keys_set_present _ _ _ _ hlk]
        exact hwf.1
      · rw [JsRecord.length_set_present _ _ _ _ hlk]
        exact hlen

/-- After a successful save, the saved entry is found under its key. -/
theorem lookup_saveTweetResults_self (cache : TRCache) (key : String)
    (results : TweetResults) (hempty : results.generatedComment ≠ "") :
    JsRecord.lookup (saveTweetResults cache key results) key = some results := by
  unfold saveTweetResults
  rw [if_neg hempty]
  exact JsRecord.lookup_set_self _ _ _

/-- A key absent from the cache and different from the saved key stays
absent after a save. -/
theorem lookup_saveTweetResults_absent (cache : TRCache) (key k' : String)
    (results : TweetResults) (hk : k' ≠ key)
    (habs : JsRecord.lookup cache k' = none) :
    JsRecord.lookup (saveTweetResults cache key results) k' = none := by
  by_cases hempty : results.generatedComment = ""
  · unfold saveTweetResults
    rw [if_pos hempty]
    exact habs
  by_cases hguard : 10 ≤ cache.length ∧ JsRecord.lookup cache key = none
  · rcases cache with _ | ⟨⟨k0, v0⟩, rest⟩
    · simp at hguard
    · rw [saveTweetResults_evict_eq k0 v0 rest key results hempty hguard.1 hguard.2]
      rw [JsRecord.lookup_set_ne _ _ _ _ (Ne.symm hk)]
      rw [JsRecord.lookup_eq_none_iff] at habs ⊢
      intro hmem
      exact habs ((JsRecord.keys_erase_sublist _ _).subset hmem)
  · rw [saveTweetResults_noevict_eq cache key results hempty hguard]
    rw [JsRecord.lookup_set_ne _ _ _ _ (Ne.symm hk)]
    exact habs

/-- At capacity, a save under a fresh key evicts exactly one entry of
minimal `lastUpdated`. -/
theorem saveTweetResults_evicts_oldest (cache : TRCache) (key : String)
    (results : TweetResults) (hnd : (JsRecord.keys cache).Nodup)
    (hcap : 10 ≤ cache.length) (habs : JsRecord.lookup cache key = none)
    (hempty : results.generatedComment ≠ "") :
    ∃ ok v, JsRecord.lookup cache ok = some v ∧
      (∀ q ∈ cache, v.lastUpdated ≤ q.2.lastUpdated) ∧
      saveTweetResults cache key results
        = JsRecord.set (JsRecord.erase cache ok) key results := by
  rcases cache with _ | ⟨⟨k0, v0⟩, rest⟩
  · simp at hcap
  · obtain ⟨p, hp, hp1, hp2, hpmin⟩ := oldestScan_spec k0 v0 rest
    refine ⟨p.1, p.2, ?_, ?_, ?_⟩
    · exact JsRecord.lookup_eq_some_of_mem _ _ _ hnd (by simpa using hp)
    · exact hpmin
    · rw [saveTweetResults_evict_eq k0 v0 rest key results hempty hcap habs, hp1]

/-- Running a sequence of `saveTweetResults` calls from the empty cache
(`{}` is the initial value of `tweetResultsCache`). -/
def runPuts (ops : List (String × TweetResults)) : TRCache :=
  ops.foldl (fun c op => saveTweetResults c op.1 op.2) []

theorem runPuts_wf (ops : List (String × TweetResults)) :
    cacheWF (runPuts ops) ∧ (runPuts ops).length ≤ 10 := by
  suffices h : ∀ c : TRCache, cacheWF c → c.length ≤ 10 →
      cacheWF (ops.foldl (fun c op => saveTweetResults c op.1 op.2) c) ∧
        (ops.foldl (fun c op => saveTweetResults c op.1 op.2) c).length ≤ 10 by
    exact h [] ⟨List.nodup_nil, by simp⟩ (by simp)
  induction ops with
  | nil => exact fun c hwf hlen => ⟨hwf, hlen⟩
  | cons op rest ih =>
    intro c hwf hlen
    obtain ⟨hwf', hlen'⟩ := saveTweetResults_preserves c op.1 op.2 hwf hlen
    exact ih _ hwf' hlen'

/-- The React component state of App.tsx that the cache protocol touches. -/
structure PanelState where
  apiKey : String
  tweetData : Option TweetData
  generatedComment : String
  isLoading : Bool
  error : String
  success : String
  tokenUsage : Option TokenUsage
  tokenCost : Option TokenCost
  currentModel : String
  commentExplanation : Option CommentExplanation
  isExplaining : Bool
  explanationError : String
  explanationTokenUsage : Option TokenUsage
  explanationTokenCost : Option TokenCost
  translation : Option String
  translationSourceLang : String
  translationError : String
  translationTokenUsage : Option TokenUsage
  translationTokenCost : Option TokenCost
  isTweetExpanded : Bool
deriving DecidableEq

/-- The `chrome.storage.session` contents the panel reads and writes:
the `sidePanelState` snapshot and the `tweetResultsCache` record. -/
structure SessionStore where
  sidePanelState : Option SidePanelState
  tweetResultsCache : TRCache
deriving DecidableEq

/-- `clearGeneratedState` from App.tsx. -/
def clearGeneratedState (s : PanelState) : PanelState :=
  { s with
    generatedComment := ""
    tokenUsage := none
    tokenCost := none
    commentExplanation := none
    explanationError := ""
    explanationTokenUsage := none
    explanationTokenCost := none }

/-- `restoreTweetResults` from App.tsx: adopt a cached entry's fields. -/
def restoreTweetResults (s : PanelState) (results : TweetResults) : PanelState :=
  { s with
    generatedComment := results.generatedComment
    tokenUsage := results.tokenUsage
    tokenCost := results.tokenCost
    currentModel := results.currentModel
    commentExplanation := results.commentExplanation }

/-- The TWEET_CLICKED branch of the side panel's `messageListener`.

The async block first reads `sidePanelState`; when it holds a tweet with a
non-empty generated comment, it persists that snapshot into the per-tweet
cache via `saveTweetResults` (all fields overridden from the snapshot,
`lastUpdated := now`). It then looks the new tweet up in the cache and
either restores the cached results or clears the generated state. The
synchronous tail sets the new tweet and resets notification/translation
state. -/
def handleTweetClicked (s : PanelState) (store : SessionStore)
    (newTweet : TweetData) (now : Nat) : PanelState × SessionStore :=
  let cache1 :=
    match store.sidePanelState with
    | some sp =>
      match sp.tweetData with
      | some prev =>
        if sp.generatedComment ≠ "" then
          saveTweetResults store.tweetResultsCache (getTweetKey prev)
            { generatedComment := sp.generatedComment
              tokenUsage := sp.tokenUsage
              tokenCost := sp.tokenCost
              currentModel := sp.currentModel
              commentExplanation := sp.commentExplanation
              lastUpdated := now }
        else store.tweetResultsCache
      | none => store.tweetResultsCache
    | none => store.tweetResultsCache
  let s1 :=
    match JsRecord.lookup cache1 (getTweetKey newTweet) with
    | some results => restoreTweetResults s results
    | none => clearGeneratedState s
  let s2 :=
    { s1 with
      tweetData := some newTweet
      isTweetExpanded := false
      error := ""
      success := ""
      translation := none
      translationSourceLang := ""
      translationError := ""
      translationTokenUsage := none
      translationTokenCost := none }
  (s2, { store with tweetResultsCache := cache1 })

/-- The session-state restore inside `loadSettings` (mount): adopt each
snapshot field only when it is truthy. -/
def restoreSessionState (s : PanelState) (store : SessionStore) : PanelState :=
  match store.sidePanelState with
  | none => s
  | some sp =>
    let s1 := match sp.tweetData with
      | some t => { s with tweetData := some t }
      | none => s
    let s2 := if sp.generatedComment ≠ ""
      then { s1 with generatedComment := sp.generatedComment } else s1
    let s3 := match sp.tokenUsage with
      | some u => { s2 with tokenUsage := some u }
      | none => s2
    let s4 := match sp.tokenCost with
      | some c => { s3 with tokenCost := some c }
      | none => s3
    let s5 := if sp.currentModel ≠ ""
      then { s4 with currentModel := sp.currentModel } else s4
    match sp.commentExplanation with
    | some e => { s5 with commentExplanation := some e }
    | none => s5

/-- The GET_CURRENT_TWEET response handler in the mount effect. When a tweet
comes back it is adopted; cached results are restored only when the cache
holds an entry with a non-empty `generatedComment`. On a cache miss the code
merely compares against `sidePanelState` and returns: neither branch of that
comparison changes any state, so the generated fields are left exactly as
they were. -/
def handleMountResponse (s : PanelState) (store : SessionStore)
    (response : Option TweetData) : PanelState :=
  match response with
  | none => s
  | some newTweet =>
    let s1 := { s with tweetData := some newTweet }
    match JsRecord.lookup store.tweetResultsCache (getTweetKey newTweet) with
    | some results =>
      if results.generatedComment ≠ "" then restoreTweetResults s1 results
      else s1
    | none => s1

/-- The mount protocol of the panel: restore the session snapshot inside
`loadSettings`, then handle the GET_CURRENT_TWEET response. -/
def panelMount (s : PanelState) (store : SessionStore)
    (response : Option TweetData) : PanelState :=
  handleMountResponse (restoreSessionState s store) store response

/-- `saveSidePanelState` without overrides: the snapshot built from the
closure's component state with a fresh timestamp. Callers override
individual fields as the source's `...overrides` spread does. -/
def saveSidePanelStateBase (s : PanelState) (now : Nat) : SidePanelState :=
  { tweetData := s.tweetData
    generatedComment := s.generatedComment
    tokenUsage := s.tokenUsage
    tokenCost := s.tokenCost
    currentModel := s.currentModel
    commentExplanation := s.commentExplanation
    lastUpdated := now }

/-- The overrides `handleExplanation` passes to `saveTweetResults`: every
field from the closure state (`generatedComment || ''` is the closure
comment itself), plus the fresh explanation and timestamp. -/
def explanationResults (s : PanelState) (result : ExplanationResult)
    (now : Nat) : TweetResults :=
  { generatedComment := s.generatedComment
    tokenUsage := s.tokenUsage
    tokenCost := s.tokenCost
    currentModel := s.currentModel
    commentExplanation := some result.explanation
    lastUpdated := now }

/-- `handleExplanation` from App.tsx. `s` is the component state captured by
the handler's closure. Guard: returns immediately when the api key or the
`comment` argument is empty. On success it stores the explanation, writes
the session snapshot with the explanation override, and calls
`saveTweetResults` for the tweet's key with all fields overridden from the
closure state plus the new explanation. On failure only the explanation
error is set. -/
def handleExplanation (s : PanelState) (store : SessionStore)
    (tweet : TweetData) (comment : String)
    (outcome : Except String ExplanationResult) (now : Nat) :
    PanelState × SessionStore :=
  if s.apiKey = "" ∨ comment = "" then (s, store)
  else
    match outcome with
    | .error msg =>
      ({ s with isExplaining := false, explanationError := msg }, store)
    | .ok result =>
      let s1 :=
        { s with
          commentExplanation := some result.explanation
          explanationTokenUsage := some result.usage
          explanationTokenCost := some result.cost
          isExplaining := false
          explanationError := "" }
      let snap :=
        { saveSidePanelStateBase s now with
          commentExplanation := some result.explanation }
      let cache1 := saveTweetResults store.tweetResultsCache (getTweetKey tweet)
        (explanationResults s result now)
      (s1, { sidePanelState := some snap, tweetResultsCache := cache1 })

/-- The synchronous prefix of `handleGenerateComment` before the awaited
stream call: loading flag on, notifications and generation-result fields
cleared. -/
def generateBegin (s : PanelState) : PanelState :=
  { s with
    isLoading := true
    error := ""
    success := ""
    generatedComment := ""
    tokenUsage := none
    tokenCost := none
    commentExplanation := none
    explanationError := "" }

/-- The success continuation of `handleGenerateComment` after
`generateCommentStream` resolves. `sClick` is the closure state from the
render in which the handler was invoked (all closure reads use it),
`captured` the tweet the request was issued for (`tweetData` in the
closure), and `sCur` the live component state at completion time. The
result is shown, the session snapshot is overwritten with the captured
tweet plus the result, and the result is saved in the per-tweet cache under
the captured tweet's key — with no check against `sCur.tweetData`.
(The preference writes to `chrome.storage.local` are outside the modelled
store.) -/
def generateComplete (sClick : PanelState) (captured : TweetData)
    (result : GenerationResult) (sCur : PanelState) (store : SessionStore)
    (now : Nat) : PanelState × SessionStore :=
  let sNew :=
    { sCur with
      generatedComment := result.comment
      tokenUsage := some result.usage
      tokenCost := some result.cost
      currentModel := result.model
      isLoading := false }
  let snap : SidePanelState :=
    { tweetData := some captured
      generatedComment := result.comment
      tokenUsage := some result.usage
      tokenCost := some result.cost
      currentModel := result.model
      commentExplanation := sClick.commentExplanation
      lastUpdated := now }
  let cache1 := saveTweetResults store.tweetResultsCache (getTweetKey captured)
    { generatedComment := result.comment
      tokenUsage := some result.usage
      tokenCost := some result.cost
      currentModel := result.model
      commentExplanation := none
      lastUpdated := now }
  (sNew, { sidePanelState := some snap, tweetResultsCache := cache1 })

/-- The catch branch of `handleGenerateComment` (plus the finally): the
error message is surfaced, the displayed result fields are cleared, and no
store write happens. -/
def generateFail (msg : String) (sCur : PanelState) (store : SessionStore) :
    PanelState × SessionStore :=
  ({ sCur with
      error := msg
      generatedComment := ""
      tokenUsage := none
      tokenCost := none
      isLoading := false },
    store)

/-- `handleGenerateComment` run to completion with no interleaved events:
guards, reset, then the stream call's outcome. -/
def handleGenerateComment (s : PanelState) (store : SessionStore)
    (outcome : Except String GenerationResult) (now : Nat) :
    PanelState × SessionStore :=
  if s.apiKey = "" then
    ({ s with error := "Please set up your API key first." }, store)
  else
    match s.tweetData with
    | none =>
      ({ s with error := "No tweet data. Please click a tweet on X." }, store)
    | some captured =>
      let s0 := generateBegin s
      match outcome with
      | .ok result => generateComplete s captured result s0 store now
      | .error msg => generateFail msg s0 store

/-- The background's per-tab tweet cache (`tweetCache` in session storage,
`Record<string, TweetData>`). The source keys entries by `String(tabId)`;
since that encoding is injective on tab ids, entries are keyed here by the
tab id itself. -/
abbrev TweetCache : Type := List (Nat × TweetData)

/-- `getCachedTweet` from src/background/index.ts
(`cache[String(tabId)] || null`). -/
def getCachedTweet (cache : TweetCache) (tabId : Nat) : Option TweetData :=
  JsRecord.lookup cache tabId

/-- `setCachedTweet` from src/background/index.ts. -/
def setCachedTweet (cache : TweetCache) (tabId : Nat) (data : TweetData) :
    TweetCache :=
  JsRecord.set cache tabId data

/-- `removeCachedTweet` from src/background/index.ts. -/
def removeCachedTweet (cache : TweetCache) (tabId : Nat) : TweetCache :=
  JsRecord.erase cache tabId

/-- The GET_CURRENT_TWEET branch of the background's `onMessage` handler:
resolve the active tab via `chrome.tabs.query`, answer with its cached
tweet, or with `null` when there is no active tab. -/
def handleGetCurrentTweet (cache : TweetCache) (activeTab : Option Nat) :
    Option TweetData :=
  match activeTab with
  | some tabId => getCachedTweet cache tabId
  | none => none

/-! Concrete sample data used by witnesses and counterexamples. -/

def sampleUsage : TokenUsage :=
  { promptTokens := 1, completionTokens := 2, totalTokens := 3 }

def sampleCost : TokenCost :=
  { inputCost := 1, outputCost := 2, totalCost := 3 }

def sampleResults (t : Nat) : TweetResults :=
  { generatedComment := "r"
    tokenUsage := none
    tokenCost := none
    currentModel := "m"
    commentExplanation := none
    lastUpdated := t }

/-- A cache at capacity: ten distinct keys, `k0` the oldest entry. -/
def sampleCache10 : TRCache :=
  [("k0", sampleResults 1000), ("k1", sampleResults 1001),
   ("k2", sampleResults 1002), ("k3", sampleResults 1003),
   ("k4", sampleResults 1004), ("k5", sampleResults 1005),
   ("k6", sampleResults 1006), ("k7", sampleResults 1007),
   ("k8", sampleResults 1008), ("k9", sampleResults 1009)]

def tweetA : TweetData := { text := "Hello world", author := none, url := none }

def tweetB : TweetData := { text := "Another post", author := none, url := none }

/-- The initial component state of App.tsx (the `useState` initial values of
the modelled fields). -/
def initialPanelState : PanelState :=
  { apiKey := ""
    tweetData := none
    generatedComment := ""
    isLoading := false
    error := ""
    success := ""
    tokenUsage := none
    tokenCost := none
    currentModel := ""
    commentExplanation := none
    isExplaining := false
    explanationError := ""
    explanationTokenUsage := none
    explanationTokenCost := none
    translation := none
    translationSourceLang := ""
    translationError := ""
    translationTokenUsage := none
    translationTokenCost := none
    isTweetExpanded := false }

def snapshotA : SidePanelState :=
  { tweetData := some tweetA
    generatedComment := "Reply A"
    tokenUsage := some sampleUsage
    tokenCost := some sampleCost
    currentModel := "m"
    commentExplanation := none
    lastUpdated := 500 }

def storeSnapA : SessionStore :=
  { sidePanelState := some snapshotA, tweetResultsCache := [] }

/-- C1: for every sequence of artifact-cache put operations starting from an
empty cache, the cache never holds more than 10 entries; and whenever a
not-already-present fingerprint is inserted with the cache at capacity, the
single entry evicted before the insert has minimum `lastUpdated` among the
entries present before the insert. -/
theorem claim_c1_cache_bound_and_min_eviction
    (ops : List (String × TweetResults))
    (cache : TRCache) (key : String) (results : TweetResults)
    (hnd : (JsRecord.keys cache).Nodup) (hcap : 10 ≤ cache.length)
    (habs : JsRecord.lookup cache key = none)
    (hne : results.generatedComment ≠ "") :
    (runPuts ops).length ≤ 10 ∧
      ∃ ok v, JsRecord.lookup cache ok = some v ∧
        (∀ q ∈ cache, v.lastUpdated ≤ q.2.lastUpdated) ∧
        saveTweetResults cache key results
          = JsRecord.set (JsRecord.erase cache ok) key results :=
  ⟨(runPuts_wf ops).2,
    saveTweetResults_evicts_oldest cache key results hnd hcap habs hne⟩

/-- Witness for C1 at concrete inputs: a full ten-entry cache, a fresh key,
and a non-empty result. -/
theorem claim_c1_witness :
    (JsRecord.keys sampleCache10).Nodup ∧ 10 ≤ sampleCache10.length ∧
    JsRecord.lookup sampleCache10 "new" = none ∧
    (sampleResults 2000).generatedComment ≠ "" ∧
    ((runPuts [("a", sampleResults 1)]).length ≤ 10 ∧
      ∃ ok v, JsRecord.lookup sampleCache10 ok = some v ∧
        (∀ q ∈ sampleCache10, v.lastUpdated ≤ q.2.lastUpdated) ∧
        saveTweetResults sampleCache10 "new" (sampleResults 2000)
          = JsRecord.set (JsRecord.erase sampleCache10 ok) "new"
              (sampleResults 2000)) :=
  ⟨by decide, by decide, by decide, by decide,
    claim_c1_cache_bound_and_min_eviction [("a", sampleResults 1)]
      sampleCache10 "new" (sampleResults 2000)
      (by decide) (by decide) (by decide) (by decide)⟩

/-- C6: a put whose artifact has empty `generatedText` is a no-op (the cache
is returned unchanged and the embedding is total, so no error is raised),
and consequently no cached artifact ever has empty `generatedText` after
any sequence of puts from the empty cache. -/
theorem claim_c6_empty_put_noop
    (cache : TRCache) (key : String) (results : TweetResults)
    (hempty : results.generatedComment = "")
    (ops : List (String × TweetResults)) :
    saveTweetResults cache key results = cache ∧
      ∀ p ∈ runPuts ops, p.2.generatedComment ≠ "" := by
  constructor
  · unfold saveTweetResults
    rw [if_pos hempty]
  · exact (runPuts_wf ops).1.2

/-- Witness for C6 at concrete inputs. -/
theorem claim_c6_witness :
    ({ sampleResults 5 with generatedComment := "" } :
        TweetResults).generatedComment = "" ∧
    (saveTweetResults sampleCache10 "new"
        { sampleResults 5 with generatedComment := "" } = sampleCache10 ∧
      ∀ p ∈ runPuts [("a", sampleResults 1), ("b", sampleResults 2)],
        p.2.generatedComment ≠ "") :=
  ⟨by decide,
    claim_c6_empty_put_noop sampleCache10 "new"
      { sampleResults 5 with generatedComment := "" } (by decide)
      [("a", sampleResults 1), ("b", sampleResults 2)]⟩

/-- C7: after `setCachedTweet c p` completes with no later write or removal
for `c`, a GET_CURRENT_TWEET query resolved against active tab `c` returns
`p`. -/
theorem claim_c7_report_then_query
    (cache : TweetCache) (c : Nat) (p : TweetData) (activeTab : Option Nat)
    (hactive : activeTab = some c) :
    handleGetCurrentTweet (setCachedTweet cache c p) activeTab = some p := by
  subst hactive
  unfold handleGetCurrentTweet getCachedTweet setCachedTweet
  exact JsRecord.lookup_set_self _ _ _

/-- Witness for C7 at concrete inputs (scenario 1 of the spec: report post
"Hello world" for context 7, then query context 7). -/
theorem claim_c7_witness :
    (some 7 : Option Nat) = some 7 ∧
    handleGetCurrentTweet (setCachedTweet [] 7 tweetA) (some 7) = some tweetA :=
  ⟨rfl, claim_c7_report_then_query [] 7 tweetA (some 7) rfl⟩

/-- C9: `setCachedTweet` and `removeCachedTweet` for context `c` leave the
cached entry of every other context `c'` unchanged. -/
theorem claim_c9_tweet_cache_frame
    (cache : TweetCache) (c c' : Nat) (p : TweetData) (h : c' ≠ c) :
    getCachedTweet (setCachedTweet cache c p) c' = getCachedTweet cache c' ∧
      getCachedTweet (removeCachedTweet cache c) c' = getCachedTweet cache c' := by
  constructor
  · exact JsRecord.lookup_set_ne _ _ _ _ (Ne.symm h)
  · exact JsRecord.lookup_erase_ne _ _ _ (Ne.symm h)

/-- Witness for C9 at concrete inputs. -/
theorem claim_c9_witness :
    (3 : Nat) ≠ 7 ∧
    (getCachedTweet (setCachedTweet [(3, tweetB)] 7 tweetA) 3
        = getCachedTweet [(3, tweetB)] 3 ∧
      getCachedTweet (removeCachedTweet [(3, tweetB)] 7) 3
        = getCachedTweet [(3, tweetB)] 3) :=
  ⟨by decide, claim_c9_tweet_cache_frame [(3, tweetB)] 7 3 tweetA (by decide)⟩

/-- The snapshot fields `handleTweetClicked` persists before switching. -/
def switchResults (sp : SidePanelState) (now : Nat) : TweetResults :=
  { generatedComment := sp.generatedComment
    tokenUsage := sp.tokenUsage
    tokenCost := sp.tokenCost
    currentModel := sp.currentModel
    commentExplanation := sp.commentExplanation
    lastUpdated := now }

theorem handleTweetClicked_cache_save (s : PanelState) (store : SessionStore)
    (newTweet : TweetData) (now : Nat) (sp : SidePanelState) (prev : TweetData)
    (hsp : store.sidePanelState = some sp) (hprev : sp.tweetData = some prev)
    (hne : sp.generatedComment ≠ "") :
    (handleTweetClicked s store newTweet now).2.tweetResultsCache
      = saveTweetResults store.tweetResultsCache (getTweetKey prev)
          (switchResults sp now) := by
  unfold handleTweetClicked switchResults
  rw [hsp]
  simp only [hprev]
  rw [if_pos hne]

theorem handleTweetClicked_cache_nosave (s : PanelState) (store : SessionStore)
    (newTweet : TweetData) (now : Nat)
    (h : ∀ sp prev, store.sidePanelState = some sp → sp.tweetData = some prev →
      sp.generatedComment = "") :
    (handleTweetClicked s store newTweet now).2.tweetResultsCache
      = store.tweetResultsCache := by
  unfold handleTweetClicked
  rcases hsp : store.sidePanelState with _ | sp
  · simp
  · rcases hprev : sp.tweetData with _ | prev
    · simp [hprev]
    · simp [hprev, h sp prev hsp hprev]

theorem handleTweetClicked_state_eq (s : PanelState) (store : SessionStore)
    (newTweet : TweetData) (now : Nat) :
    (handleTweetClicked s store newTweet now).1
      = { (match JsRecord.lookup
              ((handleTweetClicked s store newTweet now).2.tweetResultsCache)
              (getTweetKey newTweet) with
           | some results => restoreTweetResults s results
           | none => clearGeneratedState s) with
          tweetData := some newTweet
          isTweetExpanded := false
          error := ""
          success := ""
          translation := none
          translationSourceLang := ""
          translationError := ""
          translationTokenUsage := none
          translationTokenCost := none } := by
  unfold handleTweetClicked
  rcases store.sidePanelState with _ | sp
  · rfl
  · rcases sp.tweetData with _ | prev
    · rfl
    · by_cases hg : sp.generatedComment ≠ "" <;> simp [hg]

/-- C2: handling TWEET_CLICKED while the session snapshot holds the current
post with the non-empty generated text being displayed persists that text
into the per-tweet cache under the previous post's key: the result is not
discarded by the switch. -/
theorem claim_c2_save_before_switch
    (s : PanelState) (store : SessionStore) (newTweet : TweetData) (now : Nat)
    (sp : SidePanelState) (prev : TweetData)
    (hsp : store.sidePanelState = some sp)
    (hprev : sp.tweetData = some prev)
    (hne : sp.generatedComment ≠ "")
    (hsync : sp.generatedComment = s.generatedComment) :
    ∃ r, JsRecord.lookup
          ((handleTweetClicked s store newTweet now).2.tweetResultsCache)
          (getTweetKey prev) = some r ∧
        r.generatedComment = s.generatedComment := by
  rw [handleTweetClicked_cache_save s store newTweet now sp prev hsp hprev hne]
  exact ⟨switchResults sp now,
    lookup_saveTweetResults_self _ _ _ hne, hsync⟩

/-- Witness for C2: switching from `tweetA` (with "Reply A" displayed and
snapshotted) to `tweetB` leaves "Reply A" cached under `tweetA`'s key. -/
theorem claim_c2_witness :
    storeSnapA.sidePanelState = some snapshotA ∧
    snapshotA.tweetData = some tweetA ∧
    snapshotA.generatedComment ≠ "" ∧
    snapshotA.generatedComment
      = ({ initialPanelState with generatedComment := "Reply A" } :
          PanelState).generatedComment ∧
    ∃ r, JsRecord.lookup
          ((handleTweetClicked { initialPanelState with generatedComment := "Reply A" }
              storeSnapA tweetB 600).2.tweetResultsCache)
          (getTweetKey tweetA) = some r ∧
        r.generatedComment
          = ({ initialPanelState with generatedComment := "Reply A" } :
              PanelState).generatedComment :=
  ⟨by decide, by decide, by decide, by decide,
    claim_c2_save_before_switch
      { initialPanelState with generatedComment := "Reply A" }
      storeSnapA tweetB 600 snapshotA tweetA
      (by decide) (by decide) (by decide) (by decide)⟩

/-- C3: handling TWEET_CLICKED for a post whose key is in neither the cache
nor reachable from the save-before-switch step clears all displayed
generation-result fields; nothing is carried over. -/
theorem claim_c3_no_stale_carryover
    (s : PanelState) (store : SessionStore) (newTweet : TweetData) (now : Nat)
    (habs : JsRecord.lookup store.tweetResultsCache (getTweetKey newTweet) = none)
    (hfresh : ∀ sp prev, store.sidePanelState = some sp →
      sp.tweetData = some prev → getTweetKey prev ≠ getTweetKey newTweet) :
    (handleTweetClicked s store newTweet now).1.generatedComment = "" ∧
    (handleTweetClicked s store newTweet now).1.tokenUsage = none ∧
    (handleTweetClicked s store newTweet now).1.tokenCost = none ∧
    (handleTweetClicked s store newTweet now).1.commentExplanation = none ∧
    (handleTweetClicked s store newTweet now).1.tweetData = some newTweet := by
  have hcache : JsRecord.lookup
      ((handleTweetClicked s store newTweet now).2.tweetResultsCache)
      (getTweetKey newTweet) = none := by
    rcases hsp : store.sidePanelState with _ | sp
    · rw [handleTweetClicked_cache_nosave s store newTweet now
        (fun sp' prev' hsp' _ => by rw [hsp] at hsp'; exact absurd hsp' (by simp))]
      exact habs
    · rcases hprev : sp.tweetData with _ | prev
      · rw [handleTweetClicked_cache_nosave s store newTweet now
          (fun sp' prev' hsp' hprev' => by
            rw [hsp] at hsp'
            injection hsp' with h'
            subst h'
            rw [hprev] at hprev'
            exact absurd hprev' (by simp))]
        exact habs
      · by_cases hg : sp.generatedComment = ""
        · rw [handleTweetClicked_cache_nosave s store newTweet now
            (fun sp' prev' hsp' _ => by
              rw [hsp] at hsp'
              injection hsp' with h'
              subst h'
              exact hg)]
          exact habs
        · rw [handleTweetClicked_cache_save s store newTweet now sp prev hsp hprev hg]
          exact lookup_saveTweetResults_absent _ _ _ _
            (Ne.symm (hfresh sp prev hsp hprev)) habs
  rw [handleTweetClicked_state_eq s store newTweet now, hcache]
  exact ⟨rfl, rfl, rfl, rfl, rfl⟩

/-- Witness for C3: switching to `tweetB` with no cached entry clears every
generated field. -/
theorem claim_c3_witness :
    JsRecord.lookup storeSnapA.tweetResultsCache (getTweetKey tweetB) = none ∧
    ((handleTweetClicked initialPanelState storeSnapA tweetB 600).1.generatedComment = "" ∧
      (handleTweetClicked initialPanelState storeSnapA tweetB 600).1.tokenUsage = none ∧
      (handleTweetClicked initialPanelState storeSnapA tweetB 600).1.tokenCost = none ∧
      (handleTweetClicked initialPanelState storeSnapA tweetB 600).1.commentExplanation = none ∧
      (handleTweetClicked initialPanelState storeSnapA tweetB 600).1.tweetData = some tweetB) := by
  refine ⟨by decide, ?_⟩
  have h := claim_c3_no_stale_carryover initialPanelState storeSnapA tweetB 600
    (by decide)
    (fun sp prev hsp hprev => by
      rw [show storeSnapA.sidePanelState = some snapshotA from rfl] at hsp
      injection hsp with h'
      subst h'
      rw [show snapshotA.tweetData = some tweetA from rfl] at hprev
      injection hprev with h''
      subst h''
      decide)
  exact h

/-- C10: when the stream call fails, the catch branch clears the displayed
comment, usage and cost, surfaces the error message (success stays empty),
and writes nothing to the session store. -/
theorem claim_c10_failed_generation
    (s : PanelState) (store : SessionStore) (msg : String) (now : Nat)
    (t : TweetData) (hapi : s.apiKey ≠ "") (ht : s.tweetData = some t) :
    (handleGenerateComment s store (.error msg) now).1.generatedComment = "" ∧
    (handleGenerateComment s store (.error msg) now).1.tokenUsage = none ∧
    (handleGenerateComment s store (.error msg) now).1.tokenCost = none ∧
    (handleGenerateComment s store (.error msg) now).1.error = msg ∧
    (handleGenerateComment s store (.error msg) now).1.success = "" ∧
    (handleGenerateComment s store (.error msg) now).2 = store := by
  unfold handleGenerateComment
  rw [if_neg hapi, ht]
  exact ⟨rfl, rfl, rfl, rfl, rfl, rfl⟩

/-- Witness for C10 at concrete inputs. -/
theorem claim_c10_witness :
    ({ initialPanelState with apiKey := "key", tweetData := some tweetA } :
        PanelState).apiKey ≠ "" ∧
    ({ initialPanelState with apiKey := "key", tweetData := some tweetA } :
        PanelState).tweetData = some tweetA ∧
    ((handleGenerateComment
        { initialPanelState with apiKey := "key", tweetData := some tweetA }
        storeSnapA (.error "boom") 700).1.generatedComment = "" ∧
      (handleGenerateComment
        { initialPanelState with apiKey := "key", tweetData := some tweetA }
        storeSnapA (.error "boom") 700).1.tokenUsage = none ∧
      (handleGenerateComment
        { initialPanelState with apiKey := "key", tweetData := some tweetA }
        storeSnapA (.error "boom") 700).1.tokenCost = none ∧
      (handleGenerateComment
        { initialPanelState with apiKey := "key", tweetData := some tweetA }
        storeSnapA (.error "boom") 700).1.error = "boom" ∧
      (handleGenerateComment
        { initialPanelState with apiKey := "key", tweetData := some tweetA }
        storeSnapA (.error "boom") 700).1.success = "" ∧
      (handleGenerateComment
        { initialPanelState with apiKey := "key", tweetData := some tweetA }
        storeSnapA (.error "boom") 700).2 = storeSnapA) :=
  ⟨by decide, by decide,
    claim_c10_failed_generation
      { initialPanelState with apiKey := "key", tweetData := some tweetA }
      storeSnapA "boom" 700 tweetA (by decide) (by decide)⟩

/-- C4 counterexample: the snapshot restored on mount holds `tweetA` with
"Reply A"; GET_CURRENT_TWEET returns `tweetB` (different fingerprint) with
no Artifact Cache entry; the mount flow then displays `tweetB` together
with the snapshot's stale "Reply A", contradicting the claim that the
generation result would be left empty. -/
theorem claim_c4_counterexample :
    getTweetKey tweetB ≠ getTweetKey tweetA ∧
    snapshotA.generatedComment = "Reply A" ∧
    JsRecord.lookup storeSnapA.tweetResultsCache (getTweetKey tweetB) = none ∧
    (panelMount initialPanelState storeSnapA (some tweetB)).tweetData
      = some tweetB ∧
    (panelMount initialPanelState storeSnapA (some tweetB)).generatedComment
      = "Reply A" := by
  decide

/-- C4 amended: on mount, when the returned post's key has a cache entry
with non-empty generated text, its fields are adopted; when the key is
absent from the cache, only the post field is overwritten and the restored
snapshot fields — including stale generated text — are left in place. -/
theorem claim_c4_mount_adoption
    (s : PanelState) (store : SessionStore) (newTweet : TweetData) :
    (∀ r, JsRecord.lookup store.tweetResultsCache (getTweetKey newTweet)
          = some r →
        r.generatedComment ≠ "" →
        panelMount s store (some newTweet)
          = restoreTweetResults
              { restoreSessionState s store with tweetData := some newTweet } r) ∧
    (JsRecord.lookup store.tweetResultsCache (getTweetKey newTweet) = none →
        panelMount s store (some newTweet)
          = { restoreSessionState s store with tweetData := some newTweet }) := by
  constructor
  · intro r hr hne
    unfold panelMount handleMountResponse
    dsimp only
    rw [hr]
    dsimp only
    rw [if_pos hne]
  · intro hr
    unfold panelMount handleMountResponse
    dsimp only
    rw [hr]

/-- Witness for the amended C4 on the cache-miss branch. -/
theorem claim_c4_witness :
    JsRecord.lookup storeSnapA.tweetResultsCache (getTweetKey tweetB) = none ∧
    panelMount initialPanelState storeSnapA (some tweetB)
      = { restoreSessionState initialPanelState storeSnapA with
          tweetData := some tweetB } :=
  ⟨by decide,
    (claim_c4_mount_adoption initialPanelState storeSnapA tweetB).2 (by decide)⟩

def panelWithComment : PanelState :=
  { initialPanelState with
    apiKey := "key"
    tweetData := some tweetA
    generatedComment := "G"
    currentModel := "m" }

def sampleExplanation : ExplanationResult :=
  { explanation := { koreanTranslation := "KT", relevanceReason := "RR" }
    usage := sampleUsage
    cost := sampleCost }

def storeFull : SessionStore :=
  { sidePanelState := none, tweetResultsCache := sampleCache10 }

/-- C5 counterexample: attaching an explanation for a tweet whose
fingerprint is absent from a full cache is not a no-op — it inserts a new
capacity-counted entry and evicts the oldest entry (`k0`), contradicting
both "never triggers eviction" and "no-op when the fingerprint is
absent". -/
theorem claim_c5_counterexample :
    JsRecord.lookup storeFull.tweetResultsCache (getTweetKey tweetA) = none ∧
    JsRecord.lookup storeFull.tweetResultsCache "k0"
      = some (sampleResults 1000) ∧
    JsRecord.lookup
      ((handleExplanation panelWithComment storeFull tweetA "G"
          (.ok sampleExplanation) 3000).2.tweetResultsCache) "k0" = none ∧
    (handleExplanation panelWithComment storeFull tweetA "G"
        (.ok sampleExplanation) 3000).2.tweetResultsCache
      ≠ storeFull.tweetResultsCache := by
  decide

/-- C5 amended: the explanation-attachment path reuses the same put as
generation results. When the fingerprint is already present the entry is
replaced in place with no eviction (same record shape, same length); when
the stored generated comment is empty the cache is unchanged; when the
fingerprint is absent and the comment non-empty a new capacity-counted
entry is inserted. -/
theorem claim_c5_explanation_put_semantics
    (s : PanelState) (store : SessionStore) (tweet : TweetData)
    (comment : String) (result : ExplanationResult) (now : Nat)
    (hapi : s.apiKey ≠ "") (hcomment : comment ≠ "") :
    ((∃ v, JsRecord.lookup store.tweetResultsCache (getTweetKey tweet)
          = some v) →
        s.generatedComment ≠ "" →
        (handleExplanation s store tweet comment
              (.ok result) now).2.tweetResultsCache
            = JsRecord.set store.tweetResultsCache (getTweetKey tweet)
                (explanationResults s result now) ∧
          ((handleExplanation s store tweet comment
              (.ok result) now).2.tweetResultsCache).length
            = store.tweetResultsCache.length) ∧
    (s.generatedComment = "" →
        (handleExplanation s store tweet comment
            (.ok result) now).2.tweetResultsCache
          = store.tweetResultsCache) ∧
    (JsRecord.lookup store.tweetResultsCache (getTweetKey tweet) = none →
        s.generatedComment ≠ "" →
        JsRecord.lookup
            ((handleExplanation s store tweet comment
                (.ok result) now).2.tweetResultsCache)
            (getTweetKey tweet)
          = some (explanationResults s result now)) := by
  have hguard : ¬(s.apiKey = "" ∨ comment = "") := by
    intro h
    rcases h with h | h
    · exact hapi h
    · exact hcomment h
  have hcache : (handleExplanation s store tweet comment
      (.ok result) now).2.tweetResultsCache
      = saveTweetResults store.tweetResultsCache (getTweetKey tweet)
          (explanationResults s result now) := by
    unfold handleExplanation
    rw [if_neg hguard]
  have hval : (explanationResults s result now).generatedComment
      = s.generatedComment := rfl
  refine ⟨?_, ?_, ?_⟩
  · rintro ⟨v, hv⟩ hne
    rw [hcache]
    rw [saveTweetResults_noevict_eq _ _ _ (by rw [hval]; exact hne)
      (by rw [hv]; simp)]
    exact ⟨rfl, JsRecord.length_set_present _ _ _ _ hv⟩
  · intro hempty
    rw [hcache]
    unfold saveTweetResults
    rw [if_pos (by rw [hval]; exact hempty)]
  · intro hv hne
    rw [hcache]
    exact lookup_saveTweetResults_self _ _ _ (by rw [hval]; exact hne)

/-- Witness for the amended C5 on the absent-fingerprint branch. -/
theorem claim_c5_witness :
    panelWithComment.apiKey ≠ "" ∧ ("G" : String) ≠ "" ∧
    JsRecord.lookup storeFull.tweetResultsCache (getTweetKey tweetA) = none ∧
    panelWithComment.generatedComment ≠ "" ∧
    JsRecord.lookup
        ((handleExplanation panelWithComment storeFull tweetA "G"
            (.ok sampleExplanation) 3000).2.tweetResultsCache)
        (getTweetKey tweetA)
      = some (explanationResults panelWithComment sampleExplanation 3000) :=
  ⟨by decide, by decide, by decide, by decide,
    (claim_c5_explanation_put_semantics panelWithComment storeFull tweetA "G"
        sampleExplanation 3000 (by decide) (by decide)).2.2
      (by decide) (by decide)⟩

def panelA : PanelState :=
  { initialPanelState with apiKey := "key", tweetData := some tweetA }

def genResultOld : GenerationResult :=
  { comment := "Old reply", usage := sampleUsage, cost := sampleCost, model := "m" }

def emptyStore : SessionStore :=
  { sidePanelState := none, tweetResultsCache := [] }

/-- The stale-completion interleaving: a generation is begun while `tweetA`
is displayed, the user switches to `tweetB`, then the old request's
completion runs with its closure still capturing `tweetA`. -/
def staleRun : PanelState × SessionStore :=
  generateComplete panelA tweetA genResultOld
    (handleTweetClicked (generateBegin panelA) emptyStore tweetB 100).1
    (handleTweetClicked (generateBegin panelA) emptyStore tweetB 100).2
    200

/-- C8 counterexample: after the post switch to `tweetB`, the stale
completion for `tweetA` is not discarded — it overwrites the display (which
still shows `tweetB`) with the old result, overwrites the session snapshot
with the superseded `tweetA`, and persists into the Artifact Cache; no
fingerprint-match check exists. -/
theorem claim_c8_counterexample :
    getTweetKey tweetA ≠ getTweetKey tweetB ∧
    (handleTweetClicked (generateBegin panelA) emptyStore tweetB 100).1.tweetData
      = some tweetB ∧
    staleRun.1.tweetData = some tweetB ∧
    staleRun.1.generatedComment = "Old reply" ∧
    staleRun.2.sidePanelState
      = some
          { tweetData := some tweetA
            generatedComment := "Old reply"
            tokenUsage := some sampleUsage
            tokenCost := some sampleCost
            currentModel := "m"
            commentExplanation := none
            lastUpdated := 200 } ∧
    JsRecord.lookup staleRun.2.tweetResultsCache (getTweetKey tweetA) ≠ none := by
  decide

/-- C8 amended: a generation completion is persisted unconditionally under
the post captured when the request was issued: it overwrites the displayed
result fields, overwrites the session snapshot with the captured post, and
saves into the Artifact Cache under the captured post's fingerprint — with
no check that the captured fingerprint still matches the currently
displayed post, whatever that post is. -/
theorem claim_c8_no_stale_guard
    (sClick : PanelState) (captured : TweetData) (result : GenerationResult)
    (sCur : PanelState) (store : SessionStore) (now : Nat)
    (hne : result.comment ≠ "") :
    (generateComplete sClick captured result sCur store now).1.generatedComment
      = result.comment ∧
    (generateComplete sClick captured result sCur store now).1.tweetData
      = sCur.tweetData ∧
    (generateComplete sClick captured result sCur store now).2.sidePanelState
      = some
          { tweetData := some captured
            generatedComment := result.comment
            tokenUsage := some result.usage
            tokenCost := some result.cost
            currentModel := result.model
            commentExplanation := sClick.commentExplanation
            lastUpdated := now } ∧
    JsRecord.lookup
        ((generateComplete sClick captured result sCur store now).2.tweetResultsCache)
        (getTweetKey captured)
      = some
          { generatedComment := result.comment
            tokenUsage := some result.usage
            tokenCost := some result.cost
            currentModel := result.model
            commentExplanation := none
            lastUpdated := now } := by
  refine ⟨rfl, rfl, rfl, ?_⟩
  exact lookup_saveTweetResults_self _ _ _ hne

/-- Witness for the amended C8 at the concrete stale interleaving. -/
theorem claim_c8_witness :
    genResultOld.comment ≠ "" ∧
    (staleRun.1.generatedComment = genResultOld.comment ∧
      staleRun.1.tweetData
        = (handleTweetClicked (generateBegin panelA) emptyStore tweetB 100).1.tweetData ∧
      staleRun.2.sidePanelState
        = some
            { tweetData := some tweetA
              generatedComment := genResultOld.comment
              tokenUsage := some genResultOld.usage
              tokenCost := some genResultOld.cost
              currentModel := genResultOld.model
              commentExplanation := panelA.commentExplanation
              lastUpdated := 200 } ∧
      JsRecord.lookup staleRun.2.tweetResultsCache (getTweetKey tweetA)
        = some
            { generatedComment := genResultOld.comment
              tokenUsage := some genResultOld.usage
              tokenCost := some genResultOld.cost
              currentModel := genResultOld.model
              commentExplanation := none
              lastUpdated := 200 }) :=
  ⟨by decide,
    claim_c8_no_stale_guard panelA tweetA genResultOld
      (handleTweetClicked (generateBegin panelA) emptyStore tweetB 100).1
      (handleTweetClicked (generateBegin panelA) emptyStore tweetB 100).2
      200 (by decide)⟩

end Xcho
